import Mathlib

/-!
Verification of the PaperTimer exam-timer state machine (src/src/App.tsx).

The program is a single React component.  Its testable logic is:
pure arithmetic/string helpers (`formatHMS`, `splitAnsweringChecking`,
`avgPerQuestionFromAnswering`, CSV export) and a phase state machine
(setup → countdown → exam → finished) driven by one-second ticks.

Modelling conventions:
* JavaScript `number` values that are always integral in this program are
  modelled as `Int` (or `Nat` for the per-question second counters, which
  start at 0 and are only incremented).
* `parseInt` of free-form text can yield `NaN`; a `number` field that can be
  `NaN` is modelled as `Option Int`, with `none` playing the role of `NaN`
  (`NaN` is falsy, every ordered comparison against `NaN` is false, and
  arithmetic on `NaN` yields `NaN`; the definitions below reproduce those
  rules branch by branch).
* `Math.floor` of a real division is `Int.fdiv`; the float literals `0.95`
  and `2.8` denote the exact rationals `95/100` and `28/10` (the double
  rounding of these literals cannot change any comparison at the integer
  magnitudes this app manipulates, so the exact-rational reading is the
  faithful idealisation of the source).
-/

namespace PaperTimer

/-- `pad` (App.tsx line 17): two-digit zero padding. -/
def pad (n : Nat) : String :=
  if n < 10 then "0" ++ toString n else toString n

/-- `formatHMS` (App.tsx lines 18–24): clamp negatives to 0, then render
`h:mm:ss` when at least one hour, else `m:ss`. -/
def formatHMS (seconds : Int) : String :=
  let s : Nat := (max 0 seconds).toNat
  let h : Nat := s / 3600
  let m : Nat := (s % 3600) / 60
  let sec : Nat := s % 60
  if 0 < h then toString h ++ ":" ++ pad m ++ ":" ++ pad sec
  else toString m ++ ":" ++ pad sec

/-- `splitAnsweringChecking` (App.tsx lines 38–42):
`answering = Math.floor(totalSeconds * 0.95)`, `checking` the rest.
`0.95` is the exact rational `95/100` here. -/
def splitAnsweringChecking (totalSeconds : Int) : Int × Int :=
  let answering : Int := ⌊(totalSeconds : ℚ) * (95 / 100)⌋
  (answering, totalSeconds - answering)

/-- `avgPerQuestionFromAnswering` (App.tsx lines 44–46):
`Math.ceil(answeringSeconds / Math.max(1, numQuestions))`. -/
def avgPerQuestionFromAnswering (answeringSeconds numQuestions : Int) : Int :=
  ⌈(answeringSeconds : ℚ) / ((max 1 numQuestions : Int) : ℚ)⌉

/-- `EOL` (App.tsx line 51): `String.fromCharCode(10)`, the newline character. -/
def EOL : Char := Char.ofNat 10

/-- One decimal digit as a character, `'0'`–`'9'` for `d < 10`
(JavaScript number-to-string conversion for the integers this app prints). -/
def digitChar (d : Nat) : Char := Char.ofNat (48 + d)

/-- Digits of `n` in order, empty for `0` (helper for `natRepr`). -/
def natReprCore (n : Nat) : List Char :=
  if _h : n = 0 then []
  else natReprCore (n / 10) ++ [digitChar (n % 10)]
termination_by n
decreasing_by exact Nat.div_lt_self (Nat.pos_of_ne_zero _h) (by decide)

/-- Decimal rendering of a natural number, as JavaScript `String(n)` produces
when `n` is a nonnegative integer (used for the CSV cells). -/
def natRepr (n : Nat) : List Char := if n = 0 then ['0'] else natReprCore n

/-- One CSV data row, `[i + 1, sec].join(",")` for the question at 0-based
index `i` (App.tsx line 208). -/
def csvRow (i : Nat) (sec : Nat) : List Char := natRepr (i + 1) ++ ',' :: natRepr sec

/-- The data rows of `questionTotals.map((sec, i) => [i+1, sec])`, starting at
0-based index `i` (App.tsx line 208). -/
def csvRowsFrom (i : Nat) : List Nat → List (List Char)
  | [] => []
  | sec :: rest => csvRow i sec :: csvRowsFrom (i + 1) rest

/-- The CSV header row `["question_no", "total_seconds"].join(",")`
(App.tsx line 208). -/
def headerRow : List Char := "question_no".data ++ ',' :: "total_seconds".data

/-- `rows.join(EOL)` (App.tsx line 209): rows joined by single newlines. -/
def joinEOL : List (List Char) → List Char
  | [] => []
  | [r] => r
  | r :: s :: rest => r ++ EOL :: joinEOL (s :: rest)

/-- The CSV text produced by `exportCSV` (App.tsx lines 207–211), as a
character list. -/
def exportCSV (qs : List Nat) : List Char := joinEOL (headerRow :: csvRowsFrom 0 qs)

/-- Splitting a character list at every occurrence of `sep`
(the semantics of JavaScript `text.split(sep)` for a one-character
separator). -/
def splitCh (sep : Char) : List Char → List (List Char)
  | [] => [[]]
  | c :: cs =>
    match splitCh sep cs with
    | [] => [[c]]
    | r :: rs => if c = sep then [] :: r :: rs else (c :: r) :: rs

-- ---------- Timer state machine (App component, App.tsx lines 102–276) ----------

/-- The four UI phases (App.tsx line 103). -/
inductive Phase where
  | setup | countdown | exam | finished
deriving DecidableEq

/-- The React state of the `App` component (App.tsx lines 103–116).
`numQuestions` and `totalMinutes` come from `parseInt`, so they can be `NaN`
(modelled `none`); `activeQ`, `examStartTs`, `examEndTs` and `lastTick` are
`number | null` in the source, with `none` for `null`. -/
structure AppState where
  phase : Phase
  numQuestions : Option Int
  totalMinutes : Option Int
  studentName : String
  countdown : Int
  activeQ : Option Int
  questionTotals : List Nat
  visited : List Bool
  examStartTs : Option Int
  examEndTs : Option Int
  lastTick : Option Int
deriving DecidableEq

/-- `totalSeconds = totalMinutes * 60` (App.tsx line 118); `NaN` propagates. -/
def totalSeconds (s : AppState) : Option Int := s.totalMinutes.map (fun m => m * 60)

/-- Length of `Array.from({length: x})`: `x` for a nonnegative integer,
empty for `NaN` or a negative value (App.tsx lines 123–124, 203–204). -/
def initLen : Option Int → Nat
  | none => 0
  | some v => v.toNat

/-- JavaScript falsiness of a `number`: `0` and `NaN` are falsy. -/
def jsFalsyNum : Option Int → Bool
  | none => true
  | some v => v == 0

/-- JavaScript `x < 1` on a `number`: false for `NaN`. -/
def jsLtOne : Option Int → Bool
  | none => false
  | some v => decide (v < 1)

/-- JavaScript `x >= t` where `t` can be `NaN`: false for `NaN`. -/
def jsGeOpt (x : Int) : Option Int → Bool
  | none => false
  | some t => decide (t ≤ x)

/-- `onStart` (App.tsx lines 171–178): validate `numQuestions` and
`totalMinutes` with `!v || v < 1`; on failure return the unchanged state
plus the alert text, otherwise set the countdown to 10 and enter the
countdown phase. -/
def onStart (s : AppState) : AppState × Option String :=
  if jsFalsyNum s.numQuestions || jsLtOne s.numQuestions then
    (s, some "Please enter a valid number of questions")
  else if jsFalsyNum s.totalMinutes || jsLtOne s.totalMinutes then
    (s, some "Please enter a valid total time (minutes)")
  else
    ({ s with countdown := 10, phase := Phase.countdown }, none)

/-- One run of the countdown effect (App.tsx lines 128–139): outside the
countdown phase it does nothing; at `countdown <= 0` it records the start
timestamp and enters the exam phase immediately; otherwise the scheduled
one-second timeout decrements the counter. -/
def countdownStep (s : AppState) (now : Int) : AppState :=
  if s.phase ≠ Phase.countdown then s
  else if s.countdown ≤ 0 then
    { s with examStartTs := some now, lastTick := some now, phase := Phase.exam }
  else { s with countdown := s.countdown - 1 }

/-- `prev.map((sec, i) => (activeQ === i + 1 ? sec + 1 : sec))` starting at
0-based index `i` (App.tsx line 146); `activeQ === i + 1` is false when
`activeQ` is `null`. -/
def accrueFrom (a : Option Int) : Int → List Nat → List Nat
  | _, [] => []
  | i, sec :: rest => (if a = some (i + 1) then sec + 1 else sec) :: accrueFrom a (i + 1) rest

/-- The per-question accrual of one exam tick (App.tsx line 146). -/
def accrueTotals (a : Option Int) (l : List Nat) : List Nat := accrueFrom a 0 l

/-- `finishExam` (App.tsx lines 190–195): only in the exam phase, move to
finished, record the end timestamp and clear the active question. -/
def finishExam (s : AppState) (now : Int) : AppState :=
  if s.phase ≠ Phase.exam then s
  else { s with phase := Phase.finished, examEndTs := some now, activeQ := none }

/-- One firing of the exam interval (App.tsx lines 142–158): accrue one
second on the active question, refresh `lastTick`, and when the start
timestamp is set and `Math.floor((now - examStartTs)/1000) >= totalSeconds`
call `finishExam`.  The interval only exists during the exam phase
(line 143). -/
def examTick (s : AppState) (now : Int) : AppState :=
  if s.phase ≠ Phase.exam then s
  else
    let s1 := { s with questionTotals := accrueTotals s.activeQ s.questionTotals,
                       lastTick := some now }
    match s.examStartTs with
    | none => s1
    | some ts =>
      if jsGeOpt (Int.fdiv (now - ts) 1000) (totalSeconds s) then finishExam s1 now else s1

/-- `next[q - 1] = true` for a question number `q` in the rendered range
`1..questionTotals.length` (App.tsx lines 183–187). -/
def setVisitedAt (l : List Bool) (q : Int) : List Bool := l.set (q - 1).toNat true

/-- `switchToQuestion` (App.tsx lines 180–188): only in the exam phase, make
`q` the active question and mark it visited. -/
def switchToQuestion (q : Int) (s : AppState) : AppState :=
  if s.phase ≠ Phase.exam then s
  else { s with activeQ := some q, visited := setVisitedAt s.visited q }

/-- `resetAll` (App.tsx lines 197–205): back to setup, clear the active
question, all timestamps and the tick driver, and reinitialize the
per-question arrays for the current `numQuestions`. -/
def resetAll (s : AppState) : AppState :=
  { s with phase := Phase.setup, activeQ := none, examStartTs := none, examEndTs := none,
           lastTick := none,
           questionTotals := List.replicate (initLen s.numQuestions) 0,
           visited := List.replicate (initLen s.numQuestions) false }

/-- `elapsedSeconds` (App.tsx lines 161–165): `0` while `examStartTs` is
falsy (`null` or `0`); otherwise
`Math.min(totalSeconds, Math.max(0, Math.floor((base - examStartTs)/1000)))`
with `base = Date.now()` in the exam phase and `examEndTs || Date.now()`
afterwards.  `Math.min` with a `NaN` `totalSeconds` yields `NaN` (`none`). -/
def elapsedSeconds (s : AppState) (now : Int) : Option Int :=
  match s.examStartTs with
  | none => some 0
  | some ts =>
    if ts = 0 then some 0
    else
      let base : Int :=
        if s.phase = Phase.exam then now
        else
          match s.examEndTs with
          | none => now
          | some e => if e = 0 then now else e
      match totalSeconds s with
      | none => none
      | some total => some (min total (max 0 (Int.fdiv (base - ts) 1000)))

/-- `remainingSeconds = Math.max(0, totalSeconds - elapsedSeconds)`
(App.tsx line 167); `NaN` (`none`) when either operand is `NaN`. -/
def remainingSeconds (s : AppState) (now : Int) : Option Int :=
  match totalSeconds s, elapsedSeconds s now with
  | some total, some e => some (max 0 (total - e))
  | some _, none => none
  | none, _ => none

/-- The two warning tones of the active-question pill (App.tsx line 368). -/
inductive Warn where
  | amber | orange
deriving DecidableEq

/-- `activeRatio` (App.tsx line 367):
`avgPerQuestion > 0 ? activeSec / avgPerQuestion : 0`, as an exact
rational. -/
def activeRatio (activeSec : Nat) (avg : Int) : ℚ :=
  if 0 < avg then (activeSec : ℚ) / (avg : ℚ) else 0

/-- `warnLevel` (App.tsx line 368):
`activeRatio >= 2.8 ? "orange" : activeRatio >= 2 ? "amber" : null`,
with `2.8` read as the exact rational `28/10`. -/
def warnLevel (activeSec : Nat) (avg : Int) : Option Warn :=
  if (28 : ℚ) / 10 ≤ activeRatio activeSec avg then some Warn.orange
  else if (2 : ℚ) ≤ activeRatio activeSec avg then some Warn.amber
  else none

-- ---------- Event surface of the App component ----------

/-- The user and timer events the rendered component can deliver.  Setter
events and the start button belong to the setup screen, question buttons to
the exam screen; `cdTick`/`tick` are the countdown/exam timer callbacks. -/
inductive Ev where
  | setNum (n : Option Int)
  | setMinutes (m : Option Int)
  | setName (str : String)
  | start
  | cdTick (now : Int)
  | tick (now : Int)
  | switchQ (q : Int)
  | finish (now : Int)
  | reset
deriving DecidableEq

/-- One event step of the whole component.  Guards that come from rendering
rather than from the handler itself are noted inline: the three setters and
the Start button exist only on the setup screen (App.tsx lines 229–239), and
question tiles exist only for `q = 1 .. numQuestions` (App.tsx line 411).
`switchToQuestion`, `finishExam` and the timer effects carry their own phase
guards in the source. -/
def step (s : AppState) (e : Ev) : AppState :=
  match e with
  | Ev.setNum n =>
    -- input rendered only in setup; changing numQuestions re-runs the
    -- array-initialisation effect (App.tsx lines 122–125)
    if s.phase = Phase.setup then
      { s with numQuestions := n,
               questionTotals := List.replicate (initLen n) 0,
               visited := List.replicate (initLen n) false }
    else s
  | Ev.setMinutes m => if s.phase = Phase.setup then { s with totalMinutes := m } else s
  | Ev.setName str => if s.phase = Phase.setup then { s with studentName := str } else s
  | Ev.start => if s.phase = Phase.setup then (onStart s).1 else s
  | Ev.cdTick now => countdownStep s now
  | Ev.tick now => examTick s now
  | Ev.switchQ q =>
    if 1 ≤ q ∧ q ≤ (initLen s.numQuestions : Int) then switchToQuestion q s else s
  | Ev.finish now => finishExam s now
  | Ev.reset => resetAll s

/-- The initial React state (App.tsx lines 103–116), after the mount-time
array-initialisation effect (lines 122–125) has run. -/
def initState : AppState :=
  { phase := Phase.setup, numQuestions := some 10, totalMinutes := some 90, studentName := "",
    countdown := 10, activeQ := none, questionTotals := List.replicate 10 0,
    visited := List.replicate 10 false, examStartTs := none, examEndTs := none,
    lastTick := none }

/-- States the component can actually be in. -/
inductive Reachable : AppState → Prop where
  | init : Reachable initState
  | next : ∀ {s : AppState}, Reachable s → ∀ e : Ev, Reachable (step s e)

/-- Position of a phase along the one-way chain
setup → countdown → exam → finished. -/
def phaseIdx : Phase → Nat
  | Phase.setup => 0
  | Phase.countdown => 1
  | Phase.exam => 2
  | Phase.finished => 3

/-- The property `onStart` validates: both inputs are actual numbers that
are at least 1. -/
def validStart (s : AppState) : Prop :=
  (∃ n, s.numQuestions = some n ∧ 1 ≤ n) ∧ (∃ m, s.totalMinutes = some m ∧ 1 ≤ m)

/-- `k` runs of the countdown effect, each at time `now`. -/
def cdIter (now : Int) (s : AppState) : Nat → AppState
  | 0 => s
  | k + 1 => countdownStep (cdIter now s k) now

-- ---------- Theorems ----------

/-- C5: for every `totalSeconds`, `splitAnsweringChecking` returns
`answering = ⌊totalSeconds * 0.95⌋` and `checking = totalSeconds - answering`;
in particular it maps `6000` to `(5700, 300)` and `59` to `(56, 3)`. -/
theorem splitAnsweringChecking_spec :
    (∀ t : Int, (splitAnsweringChecking t).1 = ⌊(t : ℚ) * (95 / 100)⌋ ∧
      (splitAnsweringChecking t).2 = t - (splitAnsweringChecking t).1) ∧
    splitAnsweringChecking 6000 = (5700, 300) ∧
    splitAnsweringChecking 59 = (56, 3) := by
  refine ⟨fun t => ⟨rfl, rfl⟩, ?_, ?_⟩
  · have h : (⌊(6000 : ℚ) * (95 / 100)⌋ : Int) = 5700 := by norm_num
    simp [splitAnsweringChecking, h]
  · have h : (⌊(59 : ℚ) * (95 / 100)⌋ : Int) = 56 := by norm_num
    simp [splitAnsweringChecking, h]

/-- C6: for `answeringSeconds ≥ 0` and `numQuestions ≥ 1`,
`avgPerQuestionFromAnswering` is the ceiling of the exact division; in
particular it maps `(5700, 57)` to `100` and `(0, 10)` to `0`. -/
theorem avgPerQuestionFromAnswering_spec :
    (∀ a n : Int, 0 ≤ a → 1 ≤ n →
      avgPerQuestionFromAnswering a n = ⌈(a : ℚ) / (n : ℚ)⌉) ∧
    avgPerQuestionFromAnswering 5700 57 = 100 ∧
    avgPerQuestionFromAnswering 0 10 = 0 := by
  refine ⟨fun a n _ha hn => ?_, ?_, ?_⟩
  · unfold avgPerQuestionFromAnswering
    rw [max_eq_right hn]
  · have h : (max 1 (57 : Int)) = 57 := by norm_num
    unfold avgPerQuestionFromAnswering
    rw [h]
    norm_num
  · have h : (max 1 (10 : Int)) = 10 := by norm_num
    unfold avgPerQuestionFromAnswering
    rw [h]
    norm_num

/-- Witness for C6 at `(5700, 57)`. -/
theorem avgPerQuestionFromAnswering_spec_witness :
    (0 : Int) ≤ 5700 ∧ (1 : Int) ≤ 57 ∧
      avgPerQuestionFromAnswering 5700 57 = ⌈(5700 : ℚ) / ((57 : Int) : ℚ)⌉ :=
  ⟨by norm_num, by norm_num,
    avgPerQuestionFromAnswering_spec.1 5700 57 (by norm_num) (by norm_num)⟩

/-- C8: `formatHMS 0 = "0:00"`, `formatHMS 3600 = "1:00:00"`, and every
negative input clamps to `"0:00"`. -/
theorem formatHMS_spec :
    formatHMS 0 = "0:00" ∧ formatHMS 3600 = "1:00:00" ∧
    ∀ n : Int, n < 0 → formatHMS n = "0:00" := by
  refine ⟨by decide, by decide, fun n hn => ?_⟩
  have h0 : max 0 n = 0 := by omega
  unfold formatHMS
  rw [h0]
  decide

/-- Witness for C8's clamping clause at `-7`. -/
theorem formatHMS_spec_witness : (-7 : Int) < 0 ∧ formatHMS (-7) = "0:00" :=
  ⟨by norm_num, formatHMS_spec.2.2 (-7) (by norm_num)⟩

/-- C7: with a positive average, the warning level is `orange` exactly when
`activeSec / avg ≥ 2.8`, `amber` exactly when `2 ≤ activeSec / avg < 2.8`,
and absent exactly when `activeSec / avg < 2`. -/
theorem warnLevel_spec :
    ∀ (activeSec : Nat) (avg : Int), 0 < avg →
      (warnLevel activeSec avg = some Warn.orange ↔
        (28 : ℚ) / 10 ≤ (activeSec : ℚ) / (avg : ℚ)) ∧
      (warnLevel activeSec avg = some Warn.amber ↔
        (2 : ℚ) ≤ (activeSec : ℚ) / (avg : ℚ) ∧
          (activeSec : ℚ) / (avg : ℚ) < (28 : ℚ) / 10) ∧
      (warnLevel activeSec avg = none ↔ (activeSec : ℚ) / (avg : ℚ) < 2) := by
  intro a avg havg
  have hr : activeRatio a avg = (a : ℚ) / (avg : ℚ) := by simp [activeRatio, havg]
  unfold warnLevel
  rw [hr]
  by_cases h1 : (28 : ℚ) / 10 ≤ (a : ℚ) / (avg : ℚ)
  · have h2 : (2 : ℚ) ≤ (a : ℚ) / (avg : ℚ) := by
      have : (2 : ℚ) ≤ 28 / 10 := by norm_num
      linarith
    rw [if_pos h1]
    refine ⟨by simp [h1], by simp [not_lt.mpr h1], by simp [not_lt.mpr h2]⟩
  · rw [if_neg h1]
    have hlt : (a : ℚ) / (avg : ℚ) < 28 / 10 := not_le.mp h1
    by_cases h2 : (2 : ℚ) ≤ (a : ℚ) / (avg : ℚ)
    · rw [if_pos h2]
      refine ⟨by simp [h1], by simp [h2, hlt], by simp [h2]⟩
    · rw [if_neg h2]
      have hlt2 : (a : ℚ) / (avg : ℚ) < 2 := not_le.mp h2
      refine ⟨by simp [h1], ?_, by simp [hlt2]⟩
      simp [h2]

/-- Witness for C7 at `activeSec = 28`, `avg = 10`. -/
theorem warnLevel_spec_witness : (0 : Int) < 10 ∧ warnLevel 28 10 = some Warn.orange :=
  ⟨by norm_num, (warnLevel_spec 28 10 (by norm_num)).1.mpr (by norm_num)⟩

-- ---------- CSV lemmas (for C9) ----------

theorem splitCh_ne_nil (sep : Char) (l : List Char) : splitCh sep l ≠ [] := by
  cases l with
  | nil => simp [splitCh]
  | cons c cs =>
    simp only [splitCh]
    split
    · simp
    · split <;> simp

theorem splitCh_no_sep (sep : Char) (r : List Char) (hr : sep ∉ r) :
    splitCh sep r = [r] := by
  induction r with
  | nil => rfl
  | cons c cs ih =>
    have hcs : sep ∉ cs := fun h => hr (List.mem_cons_of_mem _ h)
    have hc : c ≠ sep := fun h => hr (h ▸ List.mem_cons_self _ _)
    simp only [splitCh, ih hcs]
    simp [hc]

theorem splitCh_append (sep : Char) (r tail : List Char) (hr : sep ∉ r) :
    splitCh sep (r ++ sep :: tail) = r :: splitCh sep tail := by
  induction r with
  | nil =>
    simp only [List.nil_append, splitCh]
    cases h : splitCh sep tail with
    | nil => exact absurd h (splitCh_ne_nil sep tail)
    | cons x xs => simp
  | cons c cs ih =>
    have hcs : sep ∉ cs := fun h => hr (List.mem_cons_of_mem _ h)
    have hc : c ≠ sep := fun h => hr (h ▸ List.mem_cons_self _ _)
    rw [List.cons_append]
    simp only [splitCh]
    rw [ih hcs]
    simp [hc]

theorem splitCh_joinEOL (rows : List (List Char)) (hne : rows ≠ [])
    (h : ∀ r ∈ rows, EOL ∉ r) : splitCh EOL (joinEOL rows) = rows := by
  induction rows with
  | nil => exact absurd rfl hne
  | cons r rest ih =>
    cases rest with
    | nil =>
      simp only [joinEOL]
      exact splitCh_no_sep EOL r (h r (List.mem_cons_self _ _))
    | cons s rest2 =>
      simp only [joinEOL]
      rw [splitCh_append EOL r _ (h r (List.mem_cons_self _ _))]
      rw [ih (by simp) (fun x hx => h x (List.mem_cons_of_mem _ hx))]

theorem natReprCore_no_eol (n : Nat) : EOL ∉ natReprCore n := by
  induction n using Nat.strong_induction_on with
  | _ n ih =>
    rw [natReprCore]
    split
    · simp
    · intro hmem
      rcases List.mem_append.mp hmem with h1 | h2
      · exact ih (n / 10) (Nat.div_lt_self (Nat.pos_of_ne_zero (by assumption)) (by decide)) h1
      · have hd : n % 10 < 10 := Nat.mod_lt _ (by decide)
        have heq : EOL = digitChar (n % 10) := by simpa using h2
        revert heq
        have hall : ∀ d : Nat, d < 10 → EOL ≠ digitChar d := by decide
        exact hall _ hd

theorem natRepr_no_eol (n : Nat) : EOL ∉ natRepr n := by
  unfold natRepr
  split
  · decide
  · exact natReprCore_no_eol n

theorem csvRow_no_eol (i sec : Nat) : EOL ∉ csvRow i sec := by
  unfold csvRow
  intro hmem
  rcases List.mem_append.mp hmem with h1 | h2
  · exact natRepr_no_eol _ h1
  · rcases List.mem_cons.mp h2 with h3 | h4
    · revert h3; decide
    · exact natRepr_no_eol _ h4

theorem csvRowsFrom_no_eol (qs : List Nat) :
    ∀ i, ∀ r ∈ csvRowsFrom i qs, EOL ∉ r := by
  induction qs with
  | nil => intro i r hr; simp [csvRowsFrom] at hr
  | cons sec rest ih =>
    intro i r hr
    rcases List.mem_cons.mp hr with h1 | h2
    · exact h1 ▸ csvRow_no_eol i sec
    · exact ih (i + 1) r h2

theorem headerRow_no_eol : EOL ∉ headerRow := by decide

theorem csvRowsFrom_length (qs : List Nat) : ∀ i, (csvRowsFrom i qs).length = qs.length := by
  induction qs with
  | nil => intro i; rfl
  | cons sec rest ih => intro i; simp [csvRowsFrom, ih]

/-- C9: the exported CSV is the header row followed by one row `"i,sec"` per
question, joined by single newlines; splitting the export at newlines
recovers exactly those rows, hence `numQuestions + 1` of them. -/
theorem exportCSV_spec :
    ∀ qs : List Nat,
      exportCSV qs = joinEOL (headerRow :: csvRowsFrom 0 qs) ∧
      splitCh EOL (exportCSV qs) = headerRow :: csvRowsFrom 0 qs ∧
      (splitCh EOL (exportCSV qs)).length = qs.length + 1 := by
  intro qs
  have hmem : ∀ r ∈ headerRow :: csvRowsFrom 0 qs, EOL ∉ r := by
    intro r hr
    rcases List.mem_cons.mp hr with h1 | h2
    · exact h1 ▸ headerRow_no_eol
    · exact csvRowsFrom_no_eol qs 0 r h2
  have hsplit : splitCh EOL (exportCSV qs) = headerRow :: csvRowsFrom 0 qs := by
    unfold exportCSV
    exact splitCh_joinEOL _ (by simp) hmem
  refine ⟨rfl, hsplit, ?_⟩
  rw [hsplit]
  simp [csvRowsFrom_length]

-- ---------- Accrual lemmas (for C1) ----------

theorem accrueFrom_length (a : Option Int) (i : Int) (l : List Nat) :
    (accrueFrom a i l).length = l.length := by
  induction l generalizing i with
  | nil => rfl
  | cons x t ih => simp [accrueFrom, ih]

theorem accrueFrom_getD (a : Option Int) (l : List Nat) (i0 : Int) (j : Nat)
    (h : j < l.length) :
    (accrueFrom a i0 l).getD j 0 =
      if a = some (i0 + (j : Int) + 1) then l.getD j 0 + 1 else l.getD j 0 := by
  induction l generalizing i0 j with
  | nil => simp at h
  | cons x t ih =>
    cases j with
    | zero => simp [accrueFrom]
    | succ j =>
      have hj : j < t.length := by simpa using h
      have hrec := ih (i0 + 1) j hj
      simp only [accrueFrom, List.getD_cons_succ]
      rw [hrec]
      have harith : i0 + 1 + (j : Int) + 1 = i0 + ((j : Nat) + 1 : Nat) + 1 := by
        push_cast; ring
      rw [harith]

theorem accrueFrom_none (i : Int) (l : List Nat) : accrueFrom none i l = l := by
  induction l generalizing i with
  | nil => rfl
  | cons x t ih => simp [accrueFrom, ih]

theorem examTick_totals (s : AppState) (now : Int) (h : s.phase = Phase.exam) :
    (examTick s now).questionTotals = accrueTotals s.activeQ s.questionTotals := by
  unfold examTick
  rw [if_neg (by simp [h])]
  split
  · rfl
  · split
    · simp [finishExam, h]
    · rfl

/-- C1: during the exam phase one tick adds exactly one second to the active
question's counter (list position `activeQ - 1`) and leaves every other
counter unchanged; with no active question all counters are unchanged; and
when the recomputed elapsed time `⌊(now - examStartTs)/1000⌋` has reached
`totalSeconds` the tick moves the phase to finished. -/
theorem examTick_spec :
    ∀ (s : AppState) (now : Int), s.phase = Phase.exam →
      (examTick s now).questionTotals.length = s.questionTotals.length ∧
      (∀ j : Nat, j < s.questionTotals.length →
        (examTick s now).questionTotals.getD j 0 =
          if s.activeQ = some ((j : Int) + 1) then s.questionTotals.getD j 0 + 1
          else s.questionTotals.getD j 0) ∧
      (s.activeQ = none → (examTick s now).questionTotals = s.questionTotals) ∧
      (∀ ts total, s.examStartTs = some ts → totalSeconds s = some total →
        total ≤ Int.fdiv (now - ts) 1000 → (examTick s now).phase = Phase.finished) := by
  intro s now h
  have htot := examTick_totals s now h
  refine ⟨?_, ?_, ?_, ?_⟩
  · rw [htot]
    exact accrueFrom_length _ _ _
  · intro j hj
    rw [htot]
    unfold accrueTotals
    rw [accrueFrom_getD s.activeQ s.questionTotals 0 j hj]
    have harith : (0 : Int) + (j : Int) + 1 = (j : Int) + 1 := by ring
    rw [harith]
  · intro hnone
    rw [htot, hnone]
    exact accrueFrom_none _ _
  · intro ts total hts htotal hge
    unfold examTick
    rw [if_neg (by simp [h])]
    simp only [hts, htotal, jsGeOpt]
    rw [if_pos (by simpa using hge)]
    simp [finishExam, h]

/-- A concrete exam-phase state used to witness C1: question 2 is active,
the exam started at epoch 1000 ms, and one minute is configured. -/
def sExamWitness : AppState :=
  { phase := Phase.exam, numQuestions := some 3, totalMinutes := some 1, studentName := "",
    countdown := 0, activeQ := some 2, questionTotals := [3, 4, 5],
    visited := [true, true, false], examStartTs := some 1000, examEndTs := none,
    lastTick := some 1000 }

/-- Witness for C1: at `sExamWitness` and `now = 61500` the tick increments
only question 2's counter and finishes the exam (elapsed 60 ≥ 60). -/
theorem examTick_spec_witness :
    (examTick sExamWitness 61500).questionTotals.length =
        sExamWitness.questionTotals.length ∧
    (examTick sExamWitness 61500).questionTotals.getD 1 0 =
        sExamWitness.questionTotals.getD 1 0 + 1 ∧
    (examTick sExamWitness 61500).phase = Phase.finished := by
  have h := examTick_spec sExamWitness 61500 rfl
  refine ⟨h.1, ?_, h.2.2.2 1000 60 rfl rfl (by decide)⟩
  have h2 := h.2.1 1 (by decide)
  rw [if_pos (by decide)] at h2
  exact h2

-- ---------- Phase-transition lemmas (for C2) ----------

theorem onStart_fst_phase (s : AppState) :
    (onStart s).1.phase = s.phase ∨ (onStart s).1.phase = Phase.countdown := by
  unfold onStart
  split
  · exact Or.inl rfl
  · split
    · exact Or.inl rfl
    · exact Or.inr rfl

theorem countdownStep_phase (s : AppState) (now : Int) :
    (countdownStep s now).phase = s.phase ∨
      (s.phase = Phase.countdown ∧ (countdownStep s now).phase = Phase.exam) := by
  unfold countdownStep
  split
  · exact Or.inl rfl
  · split
    · rename_i hp _
      exact Or.inr ⟨not_not.mp (by simpa using hp), rfl⟩
    · exact Or.inl rfl

theorem examTick_phase (s : AppState) (now : Int) :
    (examTick s now).phase = s.phase ∨
      (s.phase = Phase.exam ∧ (examTick s now).phase = Phase.finished) := by
  unfold examTick
  split
  · exact Or.inl rfl
  · rename_i hp
    have hx : s.phase = Phase.exam := not_not.mp (by simpa using hp)
    split
    · exact Or.inl rfl
    · split
      · exact Or.inr ⟨hx, by simp [finishExam, hx]⟩
      · exact Or.inl rfl

theorem finishExam_phase (s : AppState) (now : Int) :
    (finishExam s now).phase = s.phase ∨
      (s.phase = Phase.exam ∧ (finishExam s now).phase = Phase.finished) := by
  unfold finishExam
  split
  · exact Or.inl rfl
  · rename_i hp
    exact Or.inr ⟨not_not.mp (by simpa using hp), rfl⟩

theorem switchToQuestion_phase (q : Int) (s : AppState) :
    (switchToQuestion q s).phase = s.phase := by
  unfold switchToQuestion
  split <;> rfl

/-- C2: no event other than reset ever decreases the phase along
setup → countdown → exam → finished; `finishExam` and `switchToQuestion` are
no-ops outside the exam phase; the only event that leaves the finished phase
is reset; and `resetAll` reenters setup with zeroed counters, cleared visited
flags, no active question and no exam timestamps. -/
theorem transitions_one_way :
    (∀ (s : AppState) (e : Ev), e ≠ Ev.reset →
      phaseIdx s.phase ≤ phaseIdx (step s e).phase) ∧
    (∀ (s : AppState) (now : Int), s.phase ≠ Phase.exam → finishExam s now = s) ∧
    (∀ (q : Int) (s : AppState), s.phase ≠ Phase.exam → switchToQuestion q s = s) ∧
    (∀ (s : AppState) (e : Ev), s.phase = Phase.finished →
      (step s e).phase ≠ Phase.finished → e = Ev.reset) ∧
    (∀ s : AppState,
      (resetAll s).phase = Phase.setup ∧
      (resetAll s).questionTotals = List.replicate (initLen s.numQuestions) 0 ∧
      (resetAll s).visited = List.replicate (initLen s.numQuestions) false ∧
      (resetAll s).activeQ = none ∧
      (resetAll s).examStartTs = none ∧
      (resetAll s).examEndTs = none) := by
  refine ⟨?_, ?_, ?_, ?_, fun s => ⟨rfl, rfl, rfl, rfl, rfl, rfl⟩⟩
  · intro s e he
    cases e with
    | setNum n =>
      by_cases hp : s.phase = Phase.setup <;> simp [step, hp]
    | setMinutes m =>
      by_cases hp : s.phase = Phase.setup <;> simp [step, hp]
    | setName str =>
      by_cases hp : s.phase = Phase.setup <;> simp [step, hp]
    | start =>
      by_cases hp : s.phase = Phase.setup
      · have hstep : step s Ev.start = (onStart s).1 := by simp [step, hp]
        rw [hstep]
        rcases onStart_fst_phase s with h | h
        · rw [h]
        · rw [h, hp]
          decide
      · simp [step, hp]
    | cdTick now =>
      show phaseIdx s.phase ≤ phaseIdx (countdownStep s now).phase
      rcases countdownStep_phase s now with h | ⟨h1, h2⟩
      · rw [h]
      · rw [h1, h2]
        decide
    | tick now =>
      show phaseIdx s.phase ≤ phaseIdx (examTick s now).phase
      rcases examTick_phase s now with h | ⟨h1, h2⟩
      · rw [h]
      · rw [h1, h2]
        decide
    | switchQ q =>
      show phaseIdx s.phase ≤
        phaseIdx (if 1 ≤ q ∧ q ≤ (initLen s.numQuestions : Int) then
          switchToQuestion q s else s).phase
      split
      · rw [switchToQuestion_phase]
      · exact le_refl _
    | finish now =>
      show phaseIdx s.phase ≤ phaseIdx (finishExam s now).phase
      rcases finishExam_phase s now with h | ⟨h1, h2⟩
      · rw [h]
      · rw [h1, h2]
        decide
    | reset => exact absurd rfl he
  · intro s now hne
    unfold finishExam
    rw [if_pos hne]
  · intro q s hne
    unfold switchToQuestion
    rw [if_pos hne]
  · intro s e hf hne
    cases e with
    | setNum n => exact absurd (by simp [step, hf ▸ (by decide : Phase.finished ≠ Phase.setup), hf]) hne
    | setMinutes m => exact absurd (by simp [step, hf]) hne
    | setName str => exact absurd (by simp [step, hf]) hne
    | start => exact absurd (by simp [step, hf]) hne
    | cdTick now => exact absurd (by simp [step, countdownStep, hf]) hne
    | tick now => exact absurd (by simp [step, examTick, hf]) hne
    | switchQ q => exact absurd (by simp [step, switchToQuestion, hf]) hne
    | finish now => exact absurd (by simp [step, finishExam, hf]) hne
    | reset => rfl

/-- Witness for C2 at concrete states and events. -/
theorem transitions_one_way_witness :
    phaseIdx initState.phase ≤ phaseIdx (step initState (Ev.tick 5)).phase ∧
    finishExam initState 7 = initState ∧
    switchToQuestion 3 initState = initState ∧
    ((step { initState with phase := Phase.finished } Ev.reset).phase ≠ Phase.finished →
      Ev.reset = Ev.reset) ∧
    (resetAll initState).phase = Phase.setup :=
  ⟨transitions_one_way.1 initState (Ev.tick 5) (by decide),
   transitions_one_way.2.1 initState 7 (by decide),
   transitions_one_way.2.2.1 3 initState (by decide),
   fun h => transitions_one_way.2.2.2.1 { initState with phase := Phase.finished } Ev.reset rfl h,
   (transitions_one_way.2.2.2.2 initState).1⟩

-- ---------- onStart lemmas (for C3, C4, C10) ----------

theorem guard_false_iff (x : Option Int) :
    (jsFalsyNum x || jsLtOne x) = false ↔ ∃ v, x = some v ∧ 1 ≤ v := by
  cases x with
  | none => simp [jsFalsyNum]
  | some v =>
    simp [jsFalsyNum, jsLtOne]
    omega

theorem onStart_valid_eq (s : AppState) (hv : validStart s) :
    onStart s = ({ s with countdown := 10, phase := Phase.countdown }, none) := by
  have g1 : (jsFalsyNum s.numQuestions || jsLtOne s.numQuestions) = false :=
    (guard_false_iff _).mpr hv.1
  have g2 : (jsFalsyNum s.totalMinutes || jsLtOne s.totalMinutes) = false :=
    (guard_false_iff _).mpr hv.2
  unfold onStart
  rw [g1, g2]
  rfl

theorem onStart_invalid_eq (s : AppState) (hv : ¬ validStart s) :
    (onStart s).1 = s ∧ ∃ msg, (onStart s).2 = some msg := by
  unfold onStart
  cases hg1 : (jsFalsyNum s.numQuestions || jsLtOne s.numQuestions) with
  | true => exact ⟨rfl, _, rfl⟩
  | false =>
    cases hg2 : (jsFalsyNum s.totalMinutes || jsLtOne s.totalMinutes) with
    | true => exact ⟨rfl, _, rfl⟩
    | false =>
      exact absurd ⟨(guard_false_iff _).mp hg1, (guard_false_iff _).mp hg2⟩ hv

/-- C4: `onStart` enters the countdown (with no alert) exactly when both
inputs are numbers at least 1; on a valid state it changes only the
countdown counter and the phase; on any invalid input (`NaN`, zero or below
one) it raises an alert and returns the state unchanged. -/
theorem onStart_spec :
    ∀ s : AppState,
      (((onStart s).1.phase = Phase.countdown ∧ (onStart s).2 = none) ↔ validStart s) ∧
      (validStart s →
        (onStart s).1 = { s with countdown := 10, phase := Phase.countdown }) ∧
      (¬ validStart s → (onStart s).1 = s ∧ ∃ msg, (onStart s).2 = some msg) := by
  intro s
  by_cases hv : validStart s
  · have h := onStart_valid_eq s hv
    refine ⟨iff_of_true ⟨?_, ?_⟩ hv, fun _ => ?_, fun hnv => absurd hv hnv⟩
    · rw [h]
    · rw [h]
    · rw [h]
  · obtain ⟨h1, msg, h2⟩ := onStart_invalid_eq s hv
    refine ⟨iff_of_false ?_ hv, fun hvv => absurd hvv hv, fun _ => ⟨h1, msg, h2⟩⟩
    intro ⟨_, hnone⟩
    rw [h2] at hnone
    exact Option.some_ne_none msg hnone

/-- Witness for C4: `initState` is valid and starts the countdown; making
`numQuestions` `NaN` blocks the start with an alert and leaves the state
unchanged. -/
theorem onStart_spec_witness :
    ((onStart initState).1.phase = Phase.countdown ∧ (onStart initState).2 = none) ∧
    ((onStart { initState with numQuestions := none }).1 =
        { initState with numQuestions := none } ∧
      ∃ msg, (onStart { initState with numQuestions := none }).2 = some msg) :=
  ⟨(onStart_spec initState).1.mpr ⟨⟨10, rfl, by norm_num⟩, ⟨90, rfl, by norm_num⟩⟩,
   (onStart_spec { initState with numQuestions := none }).2.2
     (fun hv => by
        obtain ⟨⟨n, hn, _⟩, _⟩ := hv
        exact Option.some_ne_none n hn.symm)⟩

/-- C3: from a valid setup state `onStart` enters the countdown phase with
the counter at 10; a countdown effect run with a positive counter only
decrements it by one; a run with the counter at (or below) 0 enters the exam
phase and records `examStartTs = now`; hence after exactly 10 decrementing
ticks the counter is 0 and the next effect run begins the exam. -/
theorem countdown_spec :
    ∀ (s : AppState) (now : Int), s.phase = Phase.setup → validStart s →
      ((onStart s).1.phase = Phase.countdown ∧ (onStart s).1.countdown = 10) ∧
      (∀ (t : AppState) (now2 : Int), t.phase = Phase.countdown → 0 < t.countdown →
        countdownStep t now2 = { t with countdown := t.countdown - 1 }) ∧
      (∀ (t : AppState) (now2 : Int), t.phase = Phase.countdown → t.countdown ≤ 0 →
        countdownStep t now2 =
          { t with examStartTs := some now2, lastTick := some now2, phase := Phase.exam }) ∧
      (∀ k : Nat, k ≤ 10 →
        (cdIter now (onStart s).1 k).phase = Phase.countdown ∧
        (cdIter now (onStart s).1 k).countdown = 10 - (k : Int)) ∧
      ((countdownStep (cdIter now (onStart s).1 10) now).phase = Phase.exam ∧
        (countdownStep (cdIter now (onStart s).1 10) now).examStartTs = some now) := by
  intro s now _hsetup hv
  have hon := onStart_valid_eq s hv
  have hdec : ∀ (t : AppState) (now2 : Int), t.phase = Phase.countdown → 0 < t.countdown →
      countdownStep t now2 = { t with countdown := t.countdown - 1 } := by
    intro t now2 ht hc
    unfold countdownStep
    rw [if_neg (by simp [ht]), if_neg (by omega)]
  have htr : ∀ (t : AppState) (now2 : Int), t.phase = Phase.countdown → t.countdown ≤ 0 →
      countdownStep t now2 =
        { t with examStartTs := some now2, lastTick := some now2, phase := Phase.exam } := by
    intro t now2 ht hc
    unfold countdownStep
    rw [if_neg (by simp [ht]), if_pos hc]
  have hiter : ∀ k : Nat, k ≤ 10 →
      (cdIter now (onStart s).1 k).phase = Phase.countdown ∧
      (cdIter now (onStart s).1 k).countdown = 10 - (k : Int) := by
    intro k
    induction k with
    | zero =>
      intro _
      constructor
      · show (onStart s).1.phase = Phase.countdown
        rw [hon]
      · show (onStart s).1.countdown = 10 - ((0 : Nat) : Int)
        rw [hon]
        norm_num
    | succ k ih =>
      intro hk
      obtain ⟨hp, hc⟩ := ih (Nat.le_of_succ_le hk)
      have hpos : 0 < (cdIter now (onStart s).1 k).countdown := by
        rw [hc]
        omega
      have hstep : cdIter now (onStart s).1 (k + 1) =
          { cdIter now (onStart s).1 k with
              countdown := (cdIter now (onStart s).1 k).countdown - 1 } := by
        show countdownStep (cdIter now (onStart s).1 k) now = _
        exact hdec _ now hp hpos
      rw [hstep]
      refine ⟨hp, ?_⟩
      show (cdIter now (onStart s).1 k).countdown - 1 = 10 - ((k + 1 : Nat) : Int)
      rw [hc]
      push_cast
      ring
  refine ⟨?_, hdec, htr, hiter, ?_⟩
  · rw [hon]
    exact ⟨rfl, rfl⟩
  · obtain ⟨hp, hc⟩ := hiter 10 le_rfl
    have hz : (cdIter now (onStart s).1 10).countdown ≤ 0 := by
      rw [hc]
      norm_num
    rw [htr _ now hp hz]
    exact ⟨rfl, rfl⟩

/-- Witness for C3 at `initState`: the start enters countdown with counter
10, and after ten ticks the eleventh effect run begins the exam. -/
theorem countdown_spec_witness :
    ((onStart initState).1.phase = Phase.countdown ∧ (onStart initState).1.countdown = 10) ∧
    (countdownStep (cdIter 123 (onStart initState).1 10) 123).phase = Phase.exam := by
  have h := countdown_spec initState 123 rfl ⟨⟨10, rfl, by norm_num⟩, ⟨90, rfl, by norm_num⟩⟩
  exact ⟨h.1, h.2.2.2.2.1⟩

-- ---------- Reachability invariant (for C10) ----------

/-- Invariant maintained by every event: outside the setup phase the inputs
have been validated, and before the exam begins no start timestamp is set. -/
def Inv (s : AppState) : Prop :=
  (s.phase ≠ Phase.setup → validStart s) ∧
  ((s.phase = Phase.setup ∨ s.phase = Phase.countdown) → s.examStartTs = none)

theorem validStart_of_fields {s t : AppState} (hn : t.numQuestions = s.numQuestions)
    (hm : t.totalMinutes = s.totalMinutes) (hv : validStart s) : validStart t := by
  obtain ⟨⟨n, h1, h2⟩, ⟨m, h3, h4⟩⟩ := hv
  exact ⟨⟨n, by rw [hn, h1], h2⟩, ⟨m, by rw [hm, h3], h4⟩⟩

theorem inv_of_fields {s t : AppState} (hph : t.phase = s.phase)
    (hn : t.numQuestions = s.numQuestions) (hm : t.totalMinutes = s.totalMinutes)
    (he : t.examStartTs = s.examStartTs) (hs : Inv s) : Inv t := by
  obtain ⟨h1, h2⟩ := hs
  constructor
  · intro hne
    rw [hph] at hne
    exact validStart_of_fields hn hm (h1 hne)
  · intro hor
    rw [hph] at hor
    rw [he]
    exact h2 hor

theorem finishExam_fields (s : AppState) (now : Int) :
    (finishExam s now).numQuestions = s.numQuestions ∧
    (finishExam s now).totalMinutes = s.totalMinutes ∧
    (finishExam s now).examStartTs = s.examStartTs := by
  unfold finishExam
  split
  · exact ⟨rfl, rfl, rfl⟩
  · exact ⟨rfl, rfl, rfl⟩

theorem examTick_fields (s : AppState) (now : Int) :
    (examTick s now).numQuestions = s.numQuestions ∧
    (examTick s now).totalMinutes = s.totalMinutes ∧
    (examTick s now).examStartTs = s.examStartTs := by
  unfold examTick
  split
  · exact ⟨rfl, rfl, rfl⟩
  · split
    · exact ⟨rfl, rfl, rfl⟩
    · split
      · obtain ⟨ha, hb, hc⟩ := finishExam_fields
          { s with questionTotals := accrueTotals s.activeQ s.questionTotals,
                   lastTick := some now } now
        exact ⟨ha, hb, hc⟩
      · exact ⟨rfl, rfl, rfl⟩

theorem switchToQuestion_fields (q : Int) (s : AppState) :
    (switchToQuestion q s).numQuestions = s.numQuestions ∧
    (switchToQuestion q s).totalMinutes = s.totalMinutes ∧
    (switchToQuestion q s).examStartTs = s.examStartTs := by
  unfold switchToQuestion
  split
  · exact ⟨rfl, rfl, rfl⟩
  · exact ⟨rfl, rfl, rfl⟩

theorem inv_init : Inv initState :=
  ⟨fun h => absurd rfl h, fun _ => rfl⟩

theorem inv_step : ∀ s : AppState, Inv s → ∀ e : Ev, Inv (step s e) := by
  intro s hs e
  obtain ⟨h1, h2⟩ := hs
  cases e with
  | setNum n =>
    by_cases hp : s.phase = Phase.setup
    · have hstep : step s (Ev.setNum n) =
          { s with numQuestions := n, questionTotals := List.replicate (initLen n) 0,
                   visited := List.replicate (initLen n) false } := by
        simp [step, hp]
      rw [hstep]
      exact ⟨fun hne => absurd hp hne, fun _ => h2 (Or.inl hp)⟩
    · have hstep : step s (Ev.setNum n) = s := by simp [step, hp]
      rw [hstep]
      exact ⟨h1, h2⟩
  | setMinutes m =>
    by_cases hp : s.phase = Phase.setup
    · have hstep : step s (Ev.setMinutes m) = { s with totalMinutes := m } := by
        simp [step, hp]
      rw [hstep]
      exact ⟨fun hne => absurd hp hne, fun _ => h2 (Or.inl hp)⟩
    · have hstep : step s (Ev.setMinutes m) = s := by simp [step, hp]
      rw [hstep]
      exact ⟨h1, h2⟩
  | setName str =>
    by_cases hp : s.phase = Phase.setup
    · have hstep : step s (Ev.setName str) = { s with studentName := str } := by
        simp [step, hp]
      rw [hstep]
      exact ⟨fun hne => absurd hp hne, fun _ => h2 (Or.inl hp)⟩
    · have hstep : step s (Ev.setName str) = s := by simp [step, hp]
      rw [hstep]
      exact ⟨h1, h2⟩
  | start =>
    by_cases hp : s.phase = Phase.setup
    · have hstep : step s Ev.start = (onStart s).1 := by simp [step, hp]
      rw [hstep]
      by_cases hv : validStart s
      · rw [onStart_valid_eq s hv]
        exact ⟨fun _ => validStart_of_fields rfl rfl hv, fun _ => h2 (Or.inl hp)⟩
      · rw [(onStart_invalid_eq s hv).1]
        exact ⟨h1, h2⟩
    · have hstep : step s Ev.start = s := by simp [step, hp]
      rw [hstep]
      exact ⟨h1, h2⟩
  | cdTick now =>
    show Inv (countdownStep s now)
    by_cases hp : s.phase = Phase.countdown
    · by_cases hc : s.countdown ≤ 0
      · have hstep : countdownStep s now =
            { s with examStartTs := some now, lastTick := some now,
                     phase := Phase.exam } := by
          unfold countdownStep
          rw [if_neg (by simp [hp]), if_pos hc]
        rw [hstep]
        constructor
        · intro _
          exact validStart_of_fields rfl rfl (h1 (by simp [hp]))
        · intro hor
          rcases hor with h | h <;> exact Phase.noConfusion h
      · have hstep : countdownStep s now = { s with countdown := s.countdown - 1 } := by
          unfold countdownStep
          rw [if_neg (by simp [hp]), if_neg hc]
        rw [hstep]
        exact inv_of_fields rfl rfl rfl rfl ⟨h1, h2⟩
    · have hstep : countdownStep s now = s := by
        unfold countdownStep
        rw [if_pos hp]
      rw [hstep]
      exact ⟨h1, h2⟩
  | tick now =>
    show Inv (examTick s now)
    obtain ⟨hn, hm, he⟩ := examTick_fields s now
    rcases examTick_phase s now with hph | ⟨hex, hph⟩
    · exact inv_of_fields hph hn hm he ⟨h1, h2⟩
    · constructor
      · intro _
        exact validStart_of_fields hn hm (h1 (by simp [hex]))
      · intro hor
        rw [hph] at hor
        rcases hor with h | h <;> exact absurd h (by decide)
  | switchQ q =>
    show Inv (if 1 ≤ q ∧ q ≤ (initLen s.numQuestions : Int) then switchToQuestion q s else s)
    split
    · obtain ⟨hn, hm, he⟩ := switchToQuestion_fields q s
      exact inv_of_fields (switchToQuestion_phase q s) hn hm he ⟨h1, h2⟩
    · exact ⟨h1, h2⟩
  | finish now =>
    show Inv (finishExam s now)
    obtain ⟨hn, hm, he⟩ := finishExam_fields s now
    rcases finishExam_phase s now with hph | ⟨hex, hph⟩
    · exact inv_of_fields hph hn hm he ⟨h1, h2⟩
    · constructor
      · intro _
        exact validStart_of_fields hn hm (h1 (by simp [hex]))
      · intro hor
        rw [hph] at hor
        rcases hor with h | h <;> exact absurd h (by decide)
  | reset =>
    show Inv (resetAll s)
    exact ⟨fun hne => absurd rfl hne, fun _ => rfl⟩

theorem reachable_inv : ∀ s : AppState, Reachable s → Inv s := by
  intro s h
  induction h with
  | init => exact inv_init
  | next _ e ih => exact inv_step _ ih e

theorem elapsedSeconds_some_bounds (s : AppState) (now : Int) {total : Int}
    (htot : totalSeconds s = some total) (h0 : 0 ≤ total) :
    ∃ e, elapsedSeconds s now = some e ∧ 0 ≤ e ∧ e ≤ total := by
  cases hts : s.examStartTs with
  | none =>
    refine ⟨0, ?_, le_refl 0, h0⟩
    simp [elapsedSeconds, hts]
  | some ts =>
    by_cases hz : ts = 0
    · refine ⟨0, ?_, le_refl 0, h0⟩
      simp [elapsedSeconds, hts, hz]
    · have heq : elapsedSeconds s now =
          some (min total (max 0 (Int.fdiv
            ((if s.phase = Phase.exam then now
              else
                match s.examEndTs with
                | none => now
                | some ee => if ee = 0 then now else ee) - ts) 1000))) := by
        simp only [elapsedSeconds, hts, if_neg hz, htot]
      exact ⟨_, heq, le_min h0 (le_max_left 0 _), min_le_left _ _⟩

theorem remainingSeconds_nonneg (s : AppState) (now : Int) :
    ∀ r, remainingSeconds s now = some r → 0 ≤ r := by
  intro r h
  unfold remainingSeconds at h
  split at h
  · cases h
    exact le_max_left 0 _
  · exact absurd h (by simp)
  · exact absurd h (by simp)

/-- C10 (amended): in every reachable state `elapsedSeconds` is a number and
is never negative, and it is 0 before the exam starts; in every reachable
state outside the setup phase (where validation guarantees
`totalMinutes ≥ 1`) it also never exceeds `totalSeconds`; and
`remainingSeconds` is never a negative number.  (In a reachable setup state
the configured minutes can be zero, negative or `NaN`, and then
`elapsedSeconds = 0` can exceed a non-positive `totalSeconds`; see the
counterexample.) -/
theorem elapsed_clamped :
    ∀ s : AppState, Reachable s → ∀ now : Int,
      (∃ e, elapsedSeconds s now = some e ∧ 0 ≤ e) ∧
      ((s.phase = Phase.setup ∨ s.phase = Phase.countdown) →
        elapsedSeconds s now = some 0) ∧
      (s.phase ≠ Phase.setup →
        ∃ e total, elapsedSeconds s now = some e ∧ totalSeconds s = some total ∧
          0 ≤ e ∧ e ≤ total) ∧
      (∀ r, remainingSeconds s now = some r → 0 ≤ r) := by
  intro s hr now
  obtain ⟨h1, h2⟩ := reachable_inv s hr
  have hpre : (s.phase = Phase.setup ∨ s.phase = Phase.countdown) →
      elapsedSeconds s now = some 0 := by
    intro hor
    simp [elapsedSeconds, h2 hor]
  have hns : s.phase ≠ Phase.setup →
      ∃ e total, elapsedSeconds s now = some e ∧ totalSeconds s = some total ∧
        0 ≤ e ∧ e ≤ total := by
    intro hne
    obtain ⟨⟨n, hn, hn1⟩, ⟨m, hm, hm1⟩⟩ := h1 hne
    have htot : totalSeconds s = some (m * 60) := by simp [totalSeconds, hm]
    have h0T : (0 : Int) ≤ m * 60 := by omega
    obtain ⟨e, he, h0e, heT⟩ := elapsedSeconds_some_bounds s now htot h0T
    exact ⟨e, m * 60, he, htot, h0e, heT⟩
  refine ⟨?_, hpre, hns, remainingSeconds_nonneg s now⟩
  by_cases hp : s.phase = Phase.setup
  · exact ⟨0, hpre (Or.inl hp), le_refl 0⟩
  · obtain ⟨e, total, he, _, h0e, _⟩ := hns hp
    exact ⟨e, he, h0e⟩

/-- Witness for the amended C10 at `initState`. -/
theorem elapsed_clamped_witness :
    elapsedSeconds initState 42 = some 0 ∧
    (initState.phase = Phase.setup ∨ initState.phase = Phase.countdown) :=
  ⟨(elapsed_clamped initState Reachable.init 42).2.1 (Or.inl rfl), Or.inl rfl⟩

/-- C10 counterexample: typing `-5` into the minutes field in setup is a
reachable state whose `elapsedSeconds` (0) exceeds its `totalSeconds`
(-300), so the claimed clamp `elapsedSeconds ≤ totalSeconds` fails there. -/
theorem elapsed_exceeds_total_cex :
    Reachable (step initState (Ev.setMinutes (some (-5)))) ∧
    elapsedSeconds (step initState (Ev.setMinutes (some (-5)))) 0 = some 0 ∧
    totalSeconds (step initState (Ev.setMinutes (some (-5)))) = some (-300) ∧
    ¬ ((0 : Int) ≤ -300) :=
  ⟨Reachable.next Reachable.init (Ev.setMinutes (some (-5))), rfl, rfl, by norm_num⟩

end PaperTimer
